import Mathlib

/-!
Verification of the market-monitor repository (`market_monitor.py`,
`download_index_data.py`) against its natural-language specification.

The embedding models dates as natural numbers (day ordinals) and net
values as rationals.  Pandas `NaN` cells are modelled as `Option`:
`none` stands for `NaN`, and every `not np.isnan(x) and x ⋈ c` guard in
the source becomes a pattern match on the option.
-/

set_option maxHeartbeats 1000000

namespace MarketMonitor

/-- One row of a valuation series: the `date` and `net_value` columns
kept by `_fetch_fund_data` / `_read_local_data` after parsing. -/
structure Row where
  date : Nat
  value : ℚ
deriving DecidableEq

/-- The outcome of requesting and parsing one remote page in
`_fetch_fund_data` (lines 126-189).  `malformed` is the case where the
`content:"..."` or `pages:` field is absent from the payload
(lines 134-139); `page rows` is a successfully parsed page after the
`dropna` of line 155 (newest rows first). -/
inductive PageResult where
  | malformed : PageResult
  | page : List Row → PageResult
deriving DecidableEq

/-- Error channel of the synchronizer.  In the source, only
network-level `requests` exceptions and parse *exceptions* propagate
out of `_fetch_fund_data` (lines 191-196) and are retried by the
`tenacity` decorator; those raising paths are outside this model of the
per-page parse outcome. -/
inductive FetchError where
  | transient : FetchError
deriving DecidableEq

/-- Shallow embedding of the page loop of `_fetch_fund_data`
(lines 122-203).  `w` is `latest_local_date` (the watermark,
`none` = full-history mode), the page list stands for the successive
parse outcomes of pages `1, 2, ...` up to the declared total page count,
`isFirst` tracks `page_index == 1` and `hasNew` tracks `has_new_data`.
A `malformed` page takes the `break` of line 139, which ends pagination
and lets the function return normally with whatever was collected
before it (the enclosing recursion prepends earlier pages' rows). -/
def fetchPagesE (w : Option Nat) : List PageResult → Bool → Bool → Except FetchError (List Row)
  | [], _, _ => Except.ok []
  | PageResult.malformed :: _, _, _ => Except.ok []
  | PageResult.page p :: rest, isFirst, hasNew =>
    match w with
    | none => (fetchPagesE none rest false hasNew).map (fun rs => p ++ rs)
    | some wm =>
      let newRows := p.filter (fun r => wm < r.date)
      if newRows.isEmpty then
        if hasNew then Except.ok []
        else if isFirst then Except.ok []
        else if p.any (fun r => r.date ≤ wm) then Except.ok []
        else fetchPagesE (some wm) rest false hasNew
      else
        if p.any (fun r => r.date ≤ wm) then Except.ok newRows
        else (fetchPagesE (some wm) rest false true).map (fun rs => newRows ++ rs)

/-- pandas `drop_duplicates(subset=['date'], keep='last')` on a list of
rows: a row is kept iff no later row shares its date. -/
def dedupKeepLast : List Row → List Row
  | [] => []
  | r :: rest =>
    if rest.any (fun s => s.date == r.date) then dedupKeepLast rest
    else r :: dedupKeepLast rest

/-- The merge of `_process_single_fund` (line 531) and `_analyze_index`
(line 426): `pd.concat([local_df, new_df]).drop_duplicates(subset=['date'],
keep='last').sort_values(by='date', ascending=True)`; `sort_values` is a
stable sort, modelled by `insertionSort`. -/
def mergeSeries (loc nw : List Row) : List Row :=
  List.insertionSort (fun a b => a.date ≤ b.date) (dedupKeepLast (loc ++ nw))

/-- Exponential smoothing step of `ewm(span=s, adjust=False).mean()`:
`e_i = α·v_i + (1-α)·e_(i-1)`, continuing from `prev`. -/
def ewmFrom (α : ℚ) : ℚ → List ℚ → List ℚ
  | _, [] => []
  | prev, v :: vs =>
    let e := α * v + (1 - α) * prev
    e :: ewmFrom α e vs

/-- `ewm(span=span, adjust=False).mean()` over a column: seeded by the
first observation, smoothing factor `α = 2/(span+1)`. -/
def ewmList (span : Nat) (vals : List ℚ) : List ℚ :=
  match vals with
  | [] => []
  | v :: vs => v :: ewmFrom (2 / ((span : ℚ) + 1)) v vs

/-- The sample window `rolling(window=w, min_periods=1)` sees at
position `i`: the last `min (i+1) w` values up to and including `i`. -/
def windowAt (w i : Nat) (vals : List ℚ) : List ℚ :=
  (vals.take (i + 1)).drop (i + 1 - w)

/-- `rolling(window=w, min_periods=1).mean()` at position `i`. -/
def rollMean (w i : Nat) (vals : List ℚ) : ℚ :=
  let win := windowAt w i vals
  win.sum / win.length

/-- The square of `rolling(window=w, min_periods=1).std()` at position
`i`: pandas computes the sample variance (`ddof=1`), which is `NaN`
when the window holds fewer than two samples. -/
def rollVar (w i : Nat) (vals : List ℚ) : Option ℚ :=
  let win := windowAt w i vals
  if win.length < 2 then none
  else some ((win.map (fun x => (x - win.sum / win.length) ^ 2)).sum / ((win.length : ℚ) - 1))

/-- Day-over-day deltas of the value column (`diff()`). -/
def diffs (vals : List ℚ) : List ℚ :=
  List.zipWith (fun prev cur => cur - prev) vals vals.tail

/-- The `gain` column (line 314): the leading `NaN` delta fails the
`delta > 0` mask and becomes 0; positive deltas are kept, others 0. -/
def gainsList (vals : List ℚ) : List ℚ := 0 :: (diffs vals).map (fun d => max d 0)

/-- The `loss` column (line 315): negated negative deltas, others 0. -/
def lossesList (vals : List ℚ) : List ℚ := 0 :: (diffs vals).map (fun d => max (-d) 0)

/-- `avg_gain` (line 316): 14-day rolling mean with `min_periods=1`. -/
def avgGain14 (vals : List ℚ) (i : Nat) : ℚ := rollMean 14 i (gainsList vals)

/-- `avg_loss` (line 317): 14-day rolling mean with `min_periods=1`. -/
def avgLoss14 (vals : List ℚ) (i : Nat) : ℚ := rollMean 14 i (lossesList vals)

/-- RSI at position `i` (lines 319-320): `rs = avg_gain / avg_loss`
with a zero average loss replaced by `NaN` (so the RSI is undefined
there); otherwise `rsi = 100 - 100/(1+rs)`. -/
def rsiAt (vals : List ℚ) (i : Nat) : Option ℚ :=
  if avgLoss14 vals i = 0 then none
  else some (100 - 100 / (1 + avgGain14 vals i / avgLoss14 vals i))

/-- One indicator-enriched row as produced by `_calculate_indicators`. -/
structure DayData where
  date : Nat
  net_value : ℚ
  macd : ℚ
  signal : ℚ
  bb_mid : ℚ
  bb_std : Option ℚ
  bb_upper : Option ℚ
  bb_lower : Option ℚ
  rsi : Option ℚ
  ma50 : ℚ
  ma_ratio : ℚ
deriving DecidableEq

/-- The enrichment body of `_calculate_indicators` (lines 297-326) on
an ascending-date series.  The Bollinger standard deviation is a real
square root with no exact rational counterpart, so the engine is
parameterized by the square-root routine `sqrtFn` applied to the sample
variance; every claim below is proved for all `sqrtFn`, hence in
particular for the true square root. -/
def enrich (sqrtFn : ℚ → ℚ) (df : List Row) : List DayData :=
  let vals := df.map Row.value
  let macdL := List.zipWith (fun a b => a - b) (ewmList 12 vals) (ewmList 26 vals)
  let sigL := ewmList 9 macdL
  (List.range df.length).map (fun i =>
    { date := (df.getD i ⟨0, 0⟩).date
      net_value := vals.getD i 0
      macd := macdL.getD i 0
      signal := sigL.getD i 0
      bb_mid := rollMean 20 i vals
      bb_std := (rollVar 20 i vals).map sqrtFn
      bb_upper := (rollVar 20 i vals).map (fun v => rollMean 20 i vals + sqrtFn v * 2)
      bb_lower := (rollVar 20 i vals).map (fun v => rollMean 20 i vals - sqrtFn v * 2)
      rsi := rsiAt vals i
      ma50 := rollMean (min 50 df.length) i vals
      ma_ratio := vals.getD i 0 / rollMean (min 50 df.length) i vals })

/-- `_calculate_indicators` (lines 292-326): refuse a series shorter
than 26 rows (this also covers the `empty` check), otherwise sort
ascending by date and enrich. -/
def calculateIndicators (sqrtFn : ℚ → ℚ) (df : List Row) : Option (List DayData) :=
  if df.length < 26 then none
  else some (enrich sqrtFn (List.insertionSort (fun a b => a.date ≤ b.date) df))

/-- `macd - signal` of one row, the quantity called `latest_macd_diff`. -/
def macdDiff (d : DayData) : ℚ := d.macd - d.signal

/-- `not np.isnan(o) and o < c` (`none` models `NaN`). -/
def nanLt (o : Option ℚ) (c : ℚ) : Bool :=
  match o with
  | none => false
  | some x => decide (x < c)

/-- `not np.isnan(o) and o > c`. -/
def nanGt (o : Option ℚ) (c : ℚ) : Bool :=
  match o with
  | none => false
  | some x => decide (c < x)

/-- `not np.isnan(o) and v > o`. -/
def nanGtVal (v : ℚ) (o : Option ℚ) : Bool :=
  match o with
  | none => false
  | some x => decide (x < v)

/-- `not np.isnan(o) and v < o`. -/
def nanLtVal (v : ℚ) (o : Option ℚ) : Bool :=
  match o with
  | none => false
  | some x => decide (v < x)

/-- The `action_signal` values of the source. `na` is the `'N/A'`
marker used when data is unavailable. -/
inductive Action where
  | strongSell
  | weakSell
  | strongBuy
  | weakBuy
  | hold
  | na
deriving DecidableEq

/-- The `advice` values of the source. -/
inductive Advice where
  | observe
  | waitPullback
  | accumulate
deriving DecidableEq

/-- The Bollinger position labels of the source. -/
inductive BBPos where
  | aboveUpper
  | belowLower
  | mid
  | na
deriving DecidableEq

/-- The action ladder, identical in `_get_latest_signals`
(lines 363-381) and `_backtest_strategy` (lines 593-611): ordered,
first match wins.  `ma_ratio` and `macd - signal` are never `NaN` in
this embedding (their inputs are not), so their `isnan` guards collapse
to plain comparisons. -/
def actionLadder (d : DayData) : Action :=
  if d.ma_ratio < 19/20 then Action.strongSell
  else if nanGt d.rsi 70 ∧ 6/5 < d.ma_ratio ∧ macdDiff d < 0 then Action.strongSell
  else if nanGt d.rsi 65 ∨ nanGtVal d.net_value d.bb_upper ∨ 6/5 < d.ma_ratio then Action.weakSell
  else if nanLt d.rsi 35 ∧ d.ma_ratio < 9/10 ∧ 0 < macdDiff d then Action.strongBuy
  else if nanLt d.rsi 45 ∨ nanLtVal d.net_value d.bb_lower ∨ d.ma_ratio < 1 then Action.weakBuy
  else Action.hold

/-- The advice ladder of `_get_latest_signals` (lines 347-361). -/
def adviceLadder (d : DayData) : Advice :=
  if nanGt d.rsi 70 ∨ nanGtVal d.net_value d.bb_upper ∨ 6/5 < d.ma_ratio then Advice.waitPullback
  else if nanLt d.rsi 30 ∨ nanLtVal d.net_value d.bb_lower ∨ d.ma_ratio < 4/5 then Advice.accumulate
  else if 1 < d.ma_ratio ∧ 0 < macdDiff d then Advice.accumulate
  else if d.ma_ratio < 1 ∧ macdDiff d < 0 then Advice.waitPullback
  else Advice.observe

/-- The Bollinger position label of lines 384-388. -/
def bbPosition (d : DayData) : BBPos :=
  if nanGtVal d.net_value d.bb_upper then BBPos.aboveUpper
  else if nanLtVal d.net_value d.bb_lower then BBPos.belowLower
  else BBPos.mid

/-- The per-instrument result dictionary built by `_get_latest_signals`.
`netValue = none` plays the role of the `数据获取失败` failure marker. -/
structure SignalResult where
  netValue : Option ℚ
  rsi : Option ℚ
  ma_ratio : Option ℚ
  macd_diff : Option ℚ
  bb_upper : Option ℚ
  bb_lower : Option ℚ
  bb_position : BBPos
  advice : Advice
  action : Action
deriving DecidableEq

/-- The failure dictionary of lines 334-337 (also produced by the
exception handler of lines 402-415): everything unavailable, advice
observe, action `N/A`. -/
def unavailableSignal : SignalResult :=
  { netValue := none, rsi := none, ma_ratio := none, macd_diff := none,
    bb_upper := none, bb_lower := none, bb_position := BBPos.na,
    advice := Advice.observe, action := Action.na }

/-- `_get_latest_signals` (lines 328-401): compute indicators, read the
last row (`iloc[-1]`), and classify.  An empty enriched series (which
would raise in the source and be caught by the handler of line 402)
also yields the failure dictionary. -/
def getLatestSignals (sqrtFn : ℚ → ℚ) (df : List Row) : SignalResult :=
  match calculateIndicators sqrtFn df with
  | none => unavailableSignal
  | some rows =>
    match rows.getLast? with
    | none => unavailableSignal
    | some d =>
      { netValue := some d.net_value, rsi := d.rsi, ma_ratio := some d.ma_ratio,
        macd_diff := some (macdDiff d), bb_upper := d.bb_upper, bb_lower := d.bb_lower,
        bb_position := bbPosition d, advice := adviceLadder d, action := actionLadder d }

/-- The concrete snapshot of C5: RSI 20, ma_ratio 0.85, macd − signal
= 0.01, all defined, benign remaining fields. -/
def c5snapshot : DayData :=
  { date := 0, net_value := 1, macd := 1/100, signal := 0, bb_mid := 1,
    bb_std := none, bb_upper := none, bb_lower := none,
    rsi := some 20, ma50 := 1, ma_ratio := 17/20 }

/-- The kind marker of the extra dictionary appended by the stop-loss
branch (`'type': 'stop_loss'`, line 581); no other branch sets a type. -/
inductive TradeKind where
  | stopLoss
deriving DecidableEq

/-- One entry of the `trades` list of `_backtest_strategy`.  The
dictionaries carry different key sets in different branches, modelled
by optional fields: the entry branch sets `buy_date`/`buy_price` only,
the stop-loss branch sets `buy_date`/`sell_date`/`ret`/`kind` only. -/
structure Trade where
  buy_date : Nat
  buy_price : Option ℚ
  sell_date : Option Nat
  sell_price : Option ℚ
  ret : Option ℚ
  kind : Option TradeKind
deriving DecidableEq

/-- The mutable loop state of the simulation (lines 560-564): position
flag, entry price, trades list and equity curve (most recent value
last). -/
structure BState where
  position : Nat
  buy_price : ℚ
  trades : List Trade
  equity : List ℚ
deriving DecidableEq

/-- `trades[-1][...] = ...` of the signal-exit branch (lines 622-624)
and the forced close (lines 631-633): complete the last trade
dictionary in place. -/
def completeLast (ts : List Trade) (sd : Nat) (sp r : ℚ) : List Trade :=
  match ts with
  | [] => []
  | [t] => [{ t with sell_date := some sd, sell_price := some sp, ret := some r }]
  | t :: rest => t :: completeLast rest sd sp r

/-- One iteration of the backtest loop (lines 566-625) at row `cur`
with previous row `prev`: update the buy-and-hold equity curve, apply
the 10% stop-loss — which appends a separate stop-loss dictionary dated
from the *previous* row and skips signal evaluation for the day — and
otherwise evaluate the action ladder and enter or exit accordingly. -/
def stepDay (prev cur : DayData) (st : BState) : BState :=
  let prevEq := st.equity.getLastD 1
  let eqNew := if prev.net_value ≠ 0
    then prevEq * (1 + (cur.net_value - prev.net_value) / prev.net_value)
    else prevEq
  let st1 : BState := { st with equity := st.equity ++ [eqNew] }
  if st1.position = 1 ∧ cur.net_value / st1.buy_price < 9/10 then
    { st1 with
      position := 0
      buy_price := 0
      trades := st1.trades ++
        [{ buy_date := prev.date, buy_price := none, sell_date := some cur.date,
           sell_price := none, ret := some ((cur.net_value - st1.buy_price) / st1.buy_price),
           kind := some TradeKind.stopLoss }] }
  else
    let a := actionLadder cur
    if (a = Action.strongBuy ∨ a = Action.weakBuy) ∧ st1.position = 0 then
      { st1 with
        position := 1
        buy_price := cur.net_value
        trades := st1.trades ++
          [{ buy_date := cur.date, buy_price := some cur.net_value, sell_date := none,
             sell_price := none, ret := none, kind := none }] }
    else if (a = Action.strongSell ∨ a = Action.weakSell) ∧ st1.position = 1 then
      let r := (cur.net_value - st1.buy_price) / st1.buy_price
      { st1 with
        position := 0
        trades := completeLast st1.trades cur.date cur.net_value r }
    else st1

/-- The day loop `for i in range(1, len(df))`, with `prev = df.iloc[i-1]`. -/
def runDays : DayData → List DayData → BState → BState
  | _, [], st => st
  | prev, cur :: rest, st => runDays cur rest (stepDay prev cur st)

/-- The initial state and loop of the simulation over an
indicator-enriched, `dropna`-filtered series. -/
def backtestLoop (days : List DayData) : BState :=
  match days with
  | [] => { position := 0, buy_price := 0, trades := [], equity := [1] }
  | d0 :: rest => runDays d0 rest { position := 0, buy_price := 0, trades := [], equity := [1] }

/-- The forced close of lines 628-633: if still long at the end, the
last trade dictionary is completed at the final row's value (the
position flag itself is not reset in the source, which is preserved
here). -/
def finalizeB (days : List DayData) (st : BState) : BState :=
  if st.position = 1 then
    match days.getLast? with
    | some dl =>
      let r := (dl.net_value - st.buy_price) / st.buy_price
      { st with trades := completeLast st.trades dl.date dl.net_value r }
    | none => st
  else st

/-- The simulated-trading portion of `_backtest_strategy`
(lines 560-633) on an enriched series. -/
def backtestRun (days : List DayData) : BState := finalizeB days (backtestLoop days)

/-- The reported `total_trades = len(trades)` (line 640). -/
def totalTrades (days : List DayData) : Nat := (backtestRun days).trades.length

/-- Day 0 of the C4 run: macd − signal = 1/2 > 0, so no bullish
crossover (previous diff ≤ 0, current diff > 0) can occur into day 1. -/
def c4prev : DayData :=
  { date := 0, net_value := 1, macd := 1/2, signal := 0, bb_mid := 1,
    bb_std := none, bb_upper := none, bb_lower := none,
    rsi := some 50, ma50 := 1, ma_ratio := 1 }

/-- Day 1 of the C4 run: RSI 40 < 45 makes the action ladder yield
weak buy (the RSI buy condition of the claim), with macd − signal
= 1/100 > 0. -/
def c4cur : DayData :=
  { date := 1, net_value := 1, macd := 1/100, signal := 0, bb_mid := 1,
    bb_std := none, bb_upper := none, bb_lower := none,
    rsi := some 40, ma50 := 1, ma_ratio := 1 }

/-- Day 0 of the C6 run (used only as the first previous row). -/
def c6day0 : DayData :=
  { date := 0, net_value := 1, macd := 0, signal := 0, bb_mid := 1,
    bb_std := none, bb_upper := none, bb_lower := none,
    rsi := some 50, ma50 := 1, ma_ratio := 1 }

/-- Day 1 of the C6 run: the ladder yields weak buy, so a flat → long
entry at value 1. -/
def c6day1 : DayData :=
  { date := 1, net_value := 1, macd := 0, signal := 0, bb_mid := 1,
    bb_std := none, bb_upper := none, bb_lower := none,
    rsi := some 40, ma50 := 1, ma_ratio := 1 }

/-- Day 2 of the C6 run: the value drops to 0.8, beyond the 10%
stop-loss threshold. -/
def c6day2 : DayData :=
  { date := 2, net_value := 4/5, macd := 0, signal := 0, bb_mid := 1,
    bb_std := none, bb_upper := none, bb_lower := none,
    rsi := some 50, ma50 := 1, ma_ratio := 1 }

/-- One buy candidate as assembled by `_get_portfolio_signals`
(lines 843-849). -/
structure BuyCandidate where
  code : String
  signal : Action
  rsi : Option ℚ
  ma_ratio : Option ℚ
  score : Nat
deriving DecidableEq

/-- `_calculate_buy_score` (lines 855-898): fixed point allotments per
RSI band, ma_ratio band, MACD sign and Bollinger position; a `NaN`
(`none`) value contributes zero for the first three. -/
def calculateBuyScore (data : SignalResult) : Nat :=
  (match data.rsi with
    | none => 0
    | some r => if r < 30 then 40 else if r < 45 then 30 else 10) +
  (match data.ma_ratio with
    | none => 0
    | some m => if m < 9/10 then 30 else if m < 1 then 20 else 5) +
  (match data.macd_diff with
    | none => 0
    | some md => if 0 < md then 10 else if md < 0 then 5 else 0) +
  (match data.bb_position with
    | BBPos.belowLower => 25
    | BBPos.mid => 15
    | _ => 5)

/-- `_get_portfolio_signals` (lines 837-853): keep the strong-buy and
weak-buy instruments in input order, score them, sort by score
descending (`sort(key=lambda x: score, reverse=True)`, a stable sort,
modelled by `insertionSort`), and keep the first `maxPositions`. -/
def getPortfolioSignals (fundData : List (String × SignalResult)) (maxPositions : Nat) :
    List BuyCandidate :=
  let cands := fundData.filterMap (fun cd =>
    if cd.2.action = Action.strongBuy ∨ cd.2.action = Action.weakBuy then
      some { code := cd.1, signal := cd.2.action, rsi := cd.2.rsi,
             ma_ratio := cd.2.ma_ratio, score := calculateBuyScore cd.2 }
    else none)
  (List.insertionSort (fun a b => b.score ≤ a.score) cands).take maxPositions

/-- The C9 strong-buy instrument: action strong buy but a low score of
25 (RSI 50 → 10, ma_ratio 1.1 → 5, negative MACD → 5, above the upper
band → 5). -/
def c9sigA : SignalResult :=
  { netValue := some 1, rsi := some 50, ma_ratio := some (11/10), macd_diff := some (-1),
    bb_upper := some 1, bb_lower := some 1, bb_position := BBPos.aboveUpper,
    advice := Advice.observe, action := Action.strongBuy }

/-- The C9 weak-buy instrument: action weak buy but the top score of
105 (RSI 20 → 40, ma_ratio 0.85 → 30, positive MACD → 10, below the
lower band → 25). -/
def c9sigB : SignalResult :=
  { netValue := some 1, rsi := some 20, ma_ratio := some (17/20), macd_diff := some 1,
    bb_upper := some 1, bb_lower := some 1, bb_position := BBPos.belowLower,
    advice := Advice.observe, action := Action.weakBuy }

/-- The candidate the ranker builds for `c9sigA`. -/
def c9candA : BuyCandidate :=
  { code := "A", signal := Action.strongBuy, rsi := some 50, ma_ratio := some (11/10),
    score := 25 }

/-- The candidate the ranker builds for `c9sigB`. -/
def c9candB : BuyCandidate :=
  { code := "B", signal := Action.weakBuy, rsi := some 20, ma_ratio := some (17/20),
    score := 105 }

/-- `Series.tail(n)`: the last `n` rows. -/
def takeLast (n : Nat) (l : List Row) : List Row := l.drop (l.length - n)

/-- `_process_single_fund` (lines 523-541), parameterized by the newly
fetched rows `nw` (the result of `_fetch_fund_data`): if new rows
exist, merge, persist (a side effect outside this model) and classify
the 100-row tail of the merged series; otherwise fall back to the
100-row tail of the local cache; otherwise report failure.
`_analyze_index` (lines 417-453) follows the same shape. -/
def processSingleFund (sqrtFn : ℚ → ℚ) (loc nw : List Row) : Option SignalResult :=
  if nw ≠ [] then some (getLatestSignals sqrtFn (takeLast 100 (mergeSeries loc nw)))
  else if loc ≠ [] then some (getLatestSignals sqrtFn (takeLast 100 loc))
  else none

/-- Helper: a strictly-descending concatenation with an element `≤ w`
inside a prefix page forces every later row below the watermark. -/
theorem filter_join_eq_nil {w : Nat} {p : List Row} {rest : List Row}
    (x : Row) (hx : x ∈ p) (hxw : x.date ≤ w)
    (hcross : ∀ a ∈ p, ∀ b ∈ rest, b.date < a.date) :
    rest.filter (fun r => w < r.date) = [] := by
  apply List.filter_eq_nil_iff.2
  intro b hb
  have hlt : b.date < x.date := hcross x hx b hb
  simp only [decide_eq_true_eq]
  omega

/-- C1.  Incremental correctness of the synchronizer: over any
newest-first pagination of a series with strictly descending (hence
unique) dates into non-empty pages, watermark mode returns exactly the
rows strictly newer than the watermark, however many pages they span,
and for any initial values of the `page_index`/`has_new_data` flags.
With `w = max(S_old.date)` the filter below is exactly `S_new`. -/
theorem c1_incremental_sync (w : Nat) (pages : List (List Row)) :
    ∀ (isFirst hasNew : Bool),
      (∀ p ∈ pages, p ≠ []) →
      List.Pairwise (fun a b => b.date < a.date) pages.flatten →
      fetchPagesE (some w) (pages.map PageResult.page) isFirst hasNew =
        Except.ok (pages.flatten.filter (fun r => w < r.date)) := by
  induction pages with
  | nil => intro isFirst hasNew _ _; rfl
  | cons p ps ih =>
    intro isFirst hasNew hne hpw
    have hpne : p ≠ [] := hne p (List.mem_cons_self _ _)
    have hne' : ∀ q ∈ ps, q ≠ [] := fun q hq => hne q (List.mem_cons_of_mem _ hq)
    rw [List.flatten_cons, List.pairwise_append] at hpw
    obtain ⟨hp, hps, hcross⟩ := hpw
    have hcross' : ∀ a ∈ p, ∀ b ∈ ps.flatten, b.date < a.date := fun a ha b hb => hcross a ha b hb
    by_cases hemp : (p.filter (fun r => w < r.date)).isEmpty
    · -- every row of this page is at or before the watermark
      have hall : ∀ r ∈ p, r.date ≤ w := by
        intro r hr
        have := List.filter_eq_nil_iff.1 (List.isEmpty_iff.1 hemp) r hr
        simp only [decide_eq_true_eq] at this
        omega
      obtain ⟨x, hx⟩ := List.exists_mem_of_ne_nil p hpne
      have hany : p.any (fun r => r.date ≤ w) = true := by
        apply List.any_eq_true.2
        exact ⟨x, hx, by simp [hall x hx]⟩
      have hrest : ps.flatten.filter (fun r => w < r.date) = [] :=
        filter_join_eq_nil x hx (hall x hx) hcross'
      have hthis : p.filter (fun r => w < r.date) = [] := List.isEmpty_iff.1 hemp
      simp only [List.map_cons, List.flatten_cons, List.filter_append, hrest, hthis,
        List.nil_append, List.append_nil]
      cases hasNew <;> cases isFirst <;> simp [fetchPagesE, hemp, hany]
    · by_cases hany : p.any (fun r => r.date ≤ w) = true
      · -- mixed page: local history reached, keep this page's new rows and stop
        obtain ⟨x, hx, hxw⟩ := List.any_eq_true.1 hany
        simp only [decide_eq_true_eq] at hxw
        have hrest : ps.flatten.filter (fun r => w < r.date) = [] :=
          filter_join_eq_nil x hx hxw hcross'
        simp only [List.map_cons, List.flatten_cons, List.filter_append, hrest, List.append_nil]
        simp [fetchPagesE, hemp, hany]
      · -- page entirely newer than the watermark: collect it and continue
        have hfull : p.filter (fun r => w < r.date) = p := by
          apply List.filter_eq_self.2
          intro r hr
          simp only [decide_eq_true_eq]
          by_contra hcon
          exact hany (List.any_eq_true.2 ⟨r, hr, by simp; omega⟩)
        simp only [List.map_cons, List.flatten_cons, List.filter_append]
        simp only [fetchPagesE, hemp, hany]
        rw [ih false true hne' hps]
        simp [Except.map, hfull]

/-- Witness for C1: watermark 2, two pages of two rows each, the three
newer rows span both pages and are all returned. -/
theorem c1_incremental_sync_witness :
    fetchPagesE (some 2)
        ([[⟨5, 1⟩, ⟨4, 1⟩], [⟨3, 1⟩, ⟨2, 1⟩]].map PageResult.page) true false =
      Except.ok ([⟨5, 1⟩, ⟨4, 1⟩, ⟨3, 1⟩] : List Row) := by
  have h := c1_incremental_sync 2 [[⟨5, 1⟩, ⟨4, 1⟩], [⟨3, 1⟩, ⟨2, 1⟩]] true false
    (by decide) (by decide)
  rw [h]
  rfl

/-- C3 counterexample: with watermark 0, a well-formed first page
holding one new row followed by a malformed page, the synchronizer
returns normally (`Except.ok`) with the row collected so far — it does
not surface a transient-fetch error. -/
theorem c3_malformed_counterexample :
    fetchPagesE (some 0) [PageResult.page [⟨5, 1⟩], PageResult.malformed] true false =
        Except.ok ([⟨5, 1⟩] : List Row) ∧
      (Except.ok ([⟨5, 1⟩] : List Row) : Except FetchError (List Row)) ≠
        Except.error FetchError.transient := by
  constructor
  · rfl
  · intro h
    exact Except.noConfusion h

/-- C3 amended: a page whose payload cannot be parsed ends pagination
via the `break` of line 139, and the synchronizer returns normally with
the rows collected from the earlier pages; no error value is ever
produced by the page loop (network-level exceptions, which are the only
raising paths, sit outside the per-page parse outcome). -/
theorem c3_malformed_returns_normally (w : Option Nat) (pages : List PageResult) :
    ∀ (isFirst hasNew : Bool),
      (∃ rows, fetchPagesE w pages isFirst hasNew = Except.ok rows) ∧
      fetchPagesE w (PageResult.malformed :: pages) isFirst hasNew = Except.ok [] := by
  induction pages with
  | nil =>
    intro isFirst hasNew
    exact ⟨⟨[], rfl⟩, rfl⟩
  | cons pr rest ih =>
    intro isFirst hasNew
    refine ⟨?_, rfl⟩
    cases pr with
    | malformed => exact ⟨[], rfl⟩
    | page p =>
      cases w with
      | none =>
        obtain ⟨rows, hrows⟩ := (ih false hasNew).1
        exact ⟨p ++ rows, by simp [fetchPagesE, hrows, Except.map]⟩
      | some wm =>
        by_cases hemp : (p.filter (fun r => wm < r.date)).isEmpty
        · cases hasNew with
          | true => exact ⟨[], by simp [fetchPagesE, hemp]⟩
          | false =>
            cases isFirst with
            | true => exact ⟨[], by simp [fetchPagesE, hemp]⟩
            | false =>
              by_cases hany : p.any (fun r => r.date ≤ wm) = true
              · exact ⟨[], by simp [fetchPagesE, hemp, hany]⟩
              · obtain ⟨rows, hrows⟩ := (ih false false).1
                exact ⟨rows, by simp [fetchPagesE, hemp, hany, hrows]⟩
        · by_cases hany : p.any (fun r => r.date ≤ wm) = true
          · exact ⟨p.filter (fun r => wm < r.date), by simp [fetchPagesE, hemp, hany]⟩
          · obtain ⟨rows, hrows⟩ := (ih false true).1
            exact ⟨p.filter (fun r => wm < r.date) ++ rows,
              by simp [fetchPagesE, hemp, hany, hrows, Except.map]⟩

/-- Deduplication only keeps rows of the original list. -/
theorem mem_dedupKeepLast {r : Row} : ∀ {l : List Row}, r ∈ dedupKeepLast l → r ∈ l := by
  intro l
  induction l with
  | nil => intro h; simp [dedupKeepLast] at h
  | cons r' rest ih =>
    intro h
    simp only [dedupKeepLast] at h
    by_cases hd : rest.any (fun s => s.date == r'.date) = true
    · rw [if_pos hd] at h
      exact List.mem_cons_of_mem _ (ih h)
    · rw [if_neg hd] at h
      rcases List.mem_cons.1 h with h | h
      · exact h ▸ List.mem_cons_self _ _
      · exact List.mem_cons_of_mem _ (ih h)

/-- After keep-last deduplication no two rows share a date. -/
theorem dedupKeepLast_dates_nodup : ∀ l : List Row, ((dedupKeepLast l).map Row.date).Nodup := by
  intro l
  induction l with
  | nil => simp [dedupKeepLast]
  | cons r' rest ih =>
    simp only [dedupKeepLast]
    by_cases hd : rest.any (fun s => s.date == r'.date) = true
    · rw [if_pos hd]; exact ih
    · rw [if_neg hd]
      simp only [List.map_cons, List.nodup_cons]
      refine ⟨?_, ih⟩
      intro hmem
      rcases List.mem_map.1 hmem with ⟨s, hs, hsd⟩
      exact hd (List.any_eq_true.2 ⟨s, mem_dedupKeepLast hs, by simp [hsd]⟩)

/-- Keep-last deduplication loses no date. -/
theorem dates_mem_dedupKeepLast {d : Nat} : ∀ {l : List Row},
    d ∈ l.map Row.date → d ∈ (dedupKeepLast l).map Row.date := by
  intro l
  induction l with
  | nil => intro h; simp at h
  | cons r' rest ih =>
    intro h
    simp only [dedupKeepLast]
    rcases List.mem_map.1 h with ⟨s, hs, hsd⟩
    by_cases hd : rest.any (fun s => s.date == r'.date) = true
    · rw [if_pos hd]
      rcases List.mem_cons.1 hs with hs' | hs'
      · obtain ⟨t, ht, htd⟩ := List.any_eq_true.1 hd
        have htd' : t.date = r'.date := by simpa using htd
        refine ih (List.mem_map.2 ⟨t, ht, ?_⟩)
        rw [htd', ← hs', hsd]
      · exact ih (List.mem_map.2 ⟨s, hs', hsd⟩)
    · rw [if_neg hd]
      simp only [List.map_cons]
      rcases List.mem_cons.1 hs with hs' | hs'
      · exact hs' ▸ hsd ▸ List.mem_cons_self _ _
      · exact List.mem_cons_of_mem _ (ih (List.mem_map.2 ⟨s, hs', hsd⟩))

/-- In `dedupKeepLast (L ++ N)`, any surviving row whose date occurs in
`N` is itself a row of `N` (the last occurrence of a date in `L ++ N`
lies in `N` whenever the date occurs in `N`). -/
theorem dedupKeepLast_from_right {N : List Row} {r : Row} :
    ∀ {L : List Row}, r ∈ dedupKeepLast (L ++ N) → r.date ∈ N.map Row.date → r ∈ N := by
  intro L
  induction L with
  | nil => intro h _; exact mem_dedupKeepLast h
  | cons r' L' ih =>
    intro h hd
    rw [List.cons_append] at h
    simp only [dedupKeepLast] at h
    by_cases hany : (L' ++ N).any (fun s => s.date == r'.date) = true
    · rw [if_pos hany] at h
      exact ih h hd
    · rw [if_neg hany] at h
      rcases List.mem_cons.1 h with h' | h'
      · exfalso
        subst h'
        rcases List.mem_map.1 hd with ⟨s, hs, hsd⟩
        exact hany (List.any_eq_true.2 ⟨s, List.mem_append_right _ hs, by simp [hsd]⟩)
      · exact ih h' hd

/-- C2.  The merged series that is persisted and used for signals has
no two records with the same date; every date of the inputs survives;
and any merged record whose date occurs in the newly fetched rows `N`
is a record of `N` (last-write-wins in favour of the fetched rows). -/
theorem c2_merge_unique_dates (L N : List Row) (r : Row) (d : Nat) :
    ((mergeSeries L N).map Row.date).Nodup ∧
      (d ∈ (L ++ N).map Row.date → d ∈ (mergeSeries L N).map Row.date) ∧
      (r ∈ mergeSeries L N → r.date ∈ N.map Row.date → r ∈ N) := by
  have hperm : (mergeSeries L N).Perm (dedupKeepLast (L ++ N)) :=
    List.perm_insertionSort _ _
  refine ⟨?_, ?_, ?_⟩
  · exact ((hperm.map Row.date).nodup_iff).2 (dedupKeepLast_dates_nodup _)
  · intro hd
    exact ((hperm.map Row.date).mem_iff).2 (dates_mem_dedupKeepLast hd)
  · intro hr hd
    exact dedupKeepLast_from_right (hperm.mem_iff.1 hr) hd

/-- Witness for C2: local rows dated 1 and 2, one fetched row dated 2;
the merged dates are duplicate-free, date 2 survives, and the merged
record dated 2 is the fetched one. -/
theorem c2_merge_unique_dates_witness :
    (((mergeSeries [⟨1, 10⟩, ⟨2, 20⟩] [⟨2, 25⟩]).map Row.date).Nodup ∧
        (2 : Nat) ∈ (mergeSeries [⟨1, 10⟩, ⟨2, 20⟩] [⟨2, 25⟩]).map Row.date) ∧
      (⟨2, 25⟩ : Row) ∈ ([⟨2, 25⟩] : List Row) := by
  refine ⟨⟨(c2_merge_unique_dates [⟨1, 10⟩, ⟨2, 20⟩] [⟨2, 25⟩] ⟨2, 25⟩ 2).1,
    (c2_merge_unique_dates [⟨1, 10⟩, ⟨2, 20⟩] [⟨2, 25⟩] ⟨2, 25⟩ 2).2.1 (by decide)⟩, ?_⟩
  exact (c2_merge_unique_dates [⟨1, 10⟩, ⟨2, 20⟩] [⟨2, 25⟩] ⟨2, 25⟩ 2).2.2
    (by decide) (by decide)

/-- C7.  A series with fewer than 26 rows makes the indicator engine
return no result regardless of the individual indicator windows (they
are fixed constants in the source), and the classifier then yields the
unavailable action instead of raising, for every square-root routine. -/
theorem c7_insufficient_data (sqrtFn : ℚ → ℚ) (df : List Row) (h : df.length < 26) :
    calculateIndicators sqrtFn df = none ∧
      (getLatestSignals sqrtFn df).action = Action.na := by
  have hc : calculateIndicators sqrtFn df = none := by
    simp [calculateIndicators, h]
  exact ⟨hc, by simp [getLatestSignals, hc, unavailableSignal]⟩

/-- Witness for C7 at a concrete ten-row series. -/
theorem c7_insufficient_data_witness :
    calculateIndicators id
        [⟨1, 1⟩, ⟨2, 1⟩, ⟨3, 1⟩, ⟨4, 1⟩, ⟨5, 1⟩, ⟨6, 1⟩, ⟨7, 1⟩, ⟨8, 1⟩, ⟨9, 1⟩, ⟨10, 1⟩] = none ∧
      (getLatestSignals id
        [⟨1, 1⟩, ⟨2, 1⟩, ⟨3, 1⟩, ⟨4, 1⟩, ⟨5, 1⟩, ⟨6, 1⟩, ⟨7, 1⟩, ⟨8, 1⟩, ⟨9, 1⟩, ⟨10, 1⟩]).action =
        Action.na :=
  c7_insufficient_data id _ (by decide)

/-- All entries of the `gain` column are non-negative. -/
theorem gainsList_nonneg {vals : List ℚ} : ∀ x ∈ gainsList vals, 0 ≤ x := by
  intro x hx
  rcases List.mem_cons.1 hx with h | h
  · simp [h]
  · rcases List.mem_map.1 h with ⟨dl, _, hdl⟩
    rw [← hdl]
    exact le_max_right _ _

/-- All entries of the `loss` column are non-negative. -/
theorem lossesList_nonneg {vals : List ℚ} : ∀ x ∈ lossesList vals, 0 ≤ x := by
  intro x hx
  rcases List.mem_cons.1 hx with h | h
  · simp [h]
  · rcases List.mem_map.1 h with ⟨dl, _, hdl⟩
    rw [← hdl]
    exact le_max_right _ _

/-- A rolling mean of a non-negative column is non-negative. -/
theorem rollMean_nonneg {w i : Nat} {l : List ℚ} (h : ∀ x ∈ l, 0 ≤ x) :
    0 ≤ rollMean w i l := by
  unfold rollMean
  apply div_nonneg
  · apply List.sum_nonneg
    intro x hx
    exact h x (List.mem_of_mem_take (List.mem_of_mem_drop hx))
  · exact Nat.cast_nonneg _

/-- C8.  Whenever the 14-day average loss at a row is non-zero, the RSI
the engine computes there (the `rsi` column is `rsiAt` of the value
column) is defined and lies in the closed interval [0, 100]. -/
theorem c8_rsi_bounds (vals : List ℚ) (i : Nat) (hl : avgLoss14 vals i ≠ 0) :
    ∃ r, rsiAt vals i = some r ∧ 0 ≤ r ∧ r ≤ 100 := by
  have hg : 0 ≤ avgGain14 vals i := rollMean_nonneg gainsList_nonneg
  have hl0 : 0 ≤ avgLoss14 vals i := rollMean_nonneg lossesList_nonneg
  have hlpos : 0 < avgLoss14 vals i := lt_of_le_of_ne hl0 (Ne.symm hl)
  have hrs : 0 ≤ avgGain14 vals i / avgLoss14 vals i := div_nonneg hg hl0
  refine ⟨100 - 100 / (1 + avgGain14 vals i / avgLoss14 vals i), by simp [rsiAt, hl], ?_, ?_⟩
  · have h1 : (1 : ℚ) ≤ 1 + avgGain14 vals i / avgLoss14 vals i := by linarith
    have hle : 100 / (1 + avgGain14 vals i / avgLoss14 vals i) ≤ 100 :=
      div_le_self (by norm_num) h1
    linarith
  · have hpos : 0 < 100 / (1 + avgGain14 vals i / avgLoss14 vals i) := by
      apply div_pos (by norm_num)
      linarith
    linarith

/-- Witness for C8: the three-value series 1, 2, 1 has average loss 1/3
at its last row, and its RSI is defined and within bounds. -/
theorem c8_rsi_bounds_witness :
    ∃ r, rsiAt [1, 2, 1] 2 = some r ∧ 0 ≤ r ∧ r ≤ 100 :=
  c8_rsi_bounds [1, 2, 1] 2 (by
    norm_num [avgLoss14, rollMean, windowAt, lossesList, diffs, max_def])

/-- C5 counterexample: at RSI 20, ma_ratio 0.85, macd_diff +0.01 the
first rule of the ladder (`ma_ratio < 0.95`, line 364) fires before the
strong-buy rule can be reached, so the action is strong sell, not
strong buy. -/
theorem c5_ladder_counterexample :
    actionLadder c5snapshot = Action.strongSell ∧
      Action.strongSell ≠ Action.strongBuy := by
  constructor
  · have h1 : c5snapshot.ma_ratio < 19/20 := by norm_num [c5snapshot]
    unfold actionLadder
    rw [if_pos h1]
  · decide

/-- C5 amended: every snapshot with RSI 20, ma_ratio 0.85 and
macd_diff +0.01 (other fields arbitrary) is classified strong sell,
because rule 1 of the ladder (`ma_ratio < 0.95`) matches first. -/
theorem c5_ladder_strong_sell (d : DayData) (_hr : d.rsi = some 20)
    (hm : d.ma_ratio = 17/20) (_hd : macdDiff d = 1/100) :
    actionLadder d = Action.strongSell := by
  have h1 : d.ma_ratio < 19/20 := by rw [hm]; norm_num
  unfold actionLadder
  rw [if_pos h1]

/-- Witness for C5 (amended form) at the concrete snapshot. -/
theorem c5_ladder_strong_sell_witness :
    actionLadder c5snapshot = Action.strongSell :=
  c5_ladder_strong_sell c5snapshot rfl rfl (by norm_num [macdDiff, c5snapshot])

/-- C4 counterexample: a two-day run whose previous-day macd − signal
is +1/2 — so no MACD bullish crossover happens on day 1 — still
performs a flat → long entry on day 1 (one trade recorded, long at the
end): entry is decided by the action ladder alone, not by a crossover. -/
theorem c4_entry_counterexample :
    (backtestRun [c4prev, c4cur]).position = 1 ∧
      (backtestRun [c4prev, c4cur]).trades.length = 1 ∧
      ¬(macdDiff c4prev ≤ 0) := by
  have ha : actionLadder c4cur = Action.weakBuy := by
    norm_num [actionLadder, c4cur, macdDiff, nanGt, nanLt, nanGtVal, nanLtVal]
  simp only [c4prev, c4cur] at ha ⊢
  refine ⟨?_, ?_, ?_⟩
  · norm_num [backtestRun, backtestLoop, runDays, stepDay, finalizeB, completeLast, ha]
  · norm_num [backtestRun, backtestLoop, runDays, stepDay, finalizeB, completeLast, ha]
  · norm_num [macdDiff]

/-- C4 amended: from a flat state, the day step enters a long position
exactly when the action ladder yields strong buy or weak buy; the entry
rule is the action-ladder variant, independent of the previous day's
macd − signal sign (no crossover condition). -/
theorem c4_entry_is_ladder (prev cur : DayData) (st : BState) (h : st.position = 0) :
    (stepDay prev cur st).position = 1 ↔
      (actionLadder cur = Action.strongBuy ∨ actionLadder cur = Action.weakBuy) := by
  by_cases hb : actionLadder cur = Action.strongBuy ∨ actionLadder cur = Action.weakBuy
  · simp [stepDay, h, hb]
  · simp [stepDay, h, hb]

/-- Witness for C4 (amended form) at the concrete two-day input. -/
theorem c4_entry_is_ladder_witness :
    (stepDay c4prev c4cur { position := 0, buy_price := 0, trades := [], equity := [1] }).position = 1 ↔
      (actionLadder c4cur = Action.strongBuy ∨ actionLadder c4cur = Action.weakBuy) :=
  c4_entry_is_ladder c4prev c4cur _ rfl

/-- C6: evaluation of the code at the failing input.  A single
flat → long entry closed by a single stop-loss exit leaves a `trades`
list of length 2 — the stop-loss branch appends a second dictionary
(carrying the `return` key) while the original entry dictionary (with
`buy_price` and no `return`) stays in the list — so the reported
`total_trades` is 2 where the conservation law of the claim demands 1.
There is one entry record and one stop-loss record. -/
theorem c6_trade_count_bug :
    totalTrades [c6day0, c6day1, c6day2] = 2 ∧
      ((backtestRun [c6day0, c6day1, c6day2]).trades.filter
          (fun t => t.buy_price.isSome)).length = 1 ∧
      ((backtestRun [c6day0, c6day1, c6day2]).trades.filter
          (fun t => decide (t.kind = some TradeKind.stopLoss))).length = 1 := by
  have ha : actionLadder c6day1 = Action.weakBuy := by
    norm_num [actionLadder, c6day1, macdDiff, nanGt, nanLt, nanGtVal, nanLtVal]
  simp only [c6day0, c6day1, c6day2] at ha ⊢
  refine ⟨?_, ?_, ?_⟩
  · norm_num [totalTrades, backtestRun, backtestLoop, runDays, stepDay, finalizeB,
      completeLast, ha]
  · norm_num [backtestRun, backtestLoop, runDays, stepDay, finalizeB,
      completeLast, ha, List.filter_cons, List.filter_nil]
  · norm_num [backtestRun, backtestLoop, runDays, stepDay, finalizeB,
      completeLast, ha, List.filter_cons, List.filter_nil, decide_eq_true_eq]
    simp

/-- C9 amended: the ranker selects only strong-buy or weak-buy
instruments, returns at most `maxPositions` of them, and orders them by
score descending only — `_get_portfolio_signals` has neither an
action-priority key nor an RSI tie-break. -/
theorem c9_ranker_properties (fundData : List (String × SignalResult)) (maxPositions : Nat) :
    (∀ c ∈ getPortfolioSignals fundData maxPositions,
        c.signal = Action.strongBuy ∨ c.signal = Action.weakBuy) ∧
      (getPortfolioSignals fundData maxPositions).length ≤ maxPositions ∧
      (getPortfolioSignals fundData maxPositions).Sorted (fun a b => b.score ≤ a.score) := by
  haveI htot : IsTotal BuyCandidate (fun a b => b.score ≤ a.score) :=
    ⟨fun a b => Nat.le_total b.score a.score⟩
  haveI htr : IsTrans BuyCandidate (fun a b => b.score ≤ a.score) :=
    ⟨fun _ _ _ hab hbc => Nat.le_trans hbc hab⟩
  refine ⟨?_, ?_, ?_⟩
  · intro c hc
    have hc1 := List.mem_of_mem_take hc
    rw [List.mem_insertionSort] at hc1
    rcases List.mem_filterMap.1 hc1 with ⟨cd, _, hf⟩
    by_cases hcond : cd.2.action = Action.strongBuy ∨ cd.2.action = Action.weakBuy
    · rw [if_pos hcond] at hf
      cases hf
      exact hcond
    · rw [if_neg hcond] at hf
      exact absurd hf (Option.noConfusion)
  · exact List.length_take_le _ _
  · exact (List.sorted_insertionSort _ _).sublist (List.take_sublist _ _)

/-- C9 counterexample: with a strong-buy instrument scoring 25 and a
weak-buy instrument scoring 105, the ranker returns the weak-buy
candidate first — so the selection is not ordered by action priority
first as the claim states (and there is no RSI tie-break). -/
theorem c9_ranker_counterexample :
    getPortfolioSignals [("A", c9sigA), ("B", c9sigB)] 5 = [c9candB, c9candA] ∧
      c9candB.signal = Action.weakBuy ∧ c9candA.signal = Action.strongBuy := by
  refine ⟨?_, rfl, rfl⟩
  norm_num [getPortfolioSignals, calculateBuyScore, c9sigA, c9sigB, c9candA, c9candB,
    List.insertionSort, List.orderedInsert]

/-- Witness for C9 (amended form) at the concrete two-instrument map. -/
theorem c9_ranker_properties_witness :
    (c9candB.signal = Action.strongBuy ∨ c9candB.signal = Action.weakBuy) ∧
      (getPortfolioSignals [("A", c9sigA), ("B", c9sigB)] 5).length ≤ 5 := by
  have h := c9_ranker_properties [("A", c9sigA), ("B", c9sigB)] 5
  refine ⟨h.1 c9candB ?_, h.2.1⟩
  norm_num [getPortfolioSignals, calculateBuyScore, c9sigA, c9sigB, c9candB,
    List.insertionSort, List.orderedInsert]

/-- The 100-row tail has at most 100 rows. -/
theorem takeLast_length_le (l : List Row) : (takeLast 100 l).length ≤ 100 := by
  simp only [takeLast, List.length_drop]
  omega

/-- C10.  The published live signal is computed from at most the 100
most recent records: with new rows the classified series is the
100-tail of the merged series, without new rows it is the 100-tail of
the local cache, both of length at most 100; consequently any two runs
whose merged series share the same 100-tail publish the same signal. -/
theorem c10_tail_hundred (sqrtFn : ℚ → ℚ) (loc nw loc2 nw2 : List Row) :
    (nw ≠ [] → processSingleFund sqrtFn loc nw =
          some (getLatestSignals sqrtFn (takeLast 100 (mergeSeries loc nw))) ∧
        (takeLast 100 (mergeSeries loc nw)).length ≤ 100) ∧
      (nw = [] → loc ≠ [] → processSingleFund sqrtFn loc nw =
          some (getLatestSignals sqrtFn (takeLast 100 loc)) ∧
        (takeLast 100 loc).length ≤ 100) ∧
      (nw ≠ [] → nw2 ≠ [] →
        takeLast 100 (mergeSeries loc nw) = takeLast 100 (mergeSeries loc2 nw2) →
        processSingleFund sqrtFn loc nw = processSingleFund sqrtFn loc2 nw2) := by
  refine ⟨?_, ?_, ?_⟩
  · intro hnw
    exact ⟨by simp [processSingleFund, hnw], takeLast_length_le _⟩
  · intro hnw hloc
    exact ⟨by simp [processSingleFund, hnw, hloc], takeLast_length_le _⟩
  · intro hnw hnw2 htail
    simp only [processSingleFund, if_pos hnw, if_pos hnw2, htail]

/-- Witness for C10: a single fetched row and an empty local cache. -/
theorem c10_tail_hundred_witness :
    processSingleFund id [] [⟨1, 1⟩] =
        some (getLatestSignals id (takeLast 100 (mergeSeries [] [⟨1, 1⟩]))) ∧
      (takeLast 100 (mergeSeries [] [⟨1, 1⟩])).length ≤ 100 :=
  (c10_tail_hundred id [] [⟨1, 1⟩] [] [⟨1, 1⟩]).1 (by decide)

end MarketMonitor

